import Mathlib

/-
  Shallow embedding of the Modular component-contract layer
  (src/src/module.ts): the `Module` base class, its two error kinds,
  and the utility helpers it depends on.

  Conventions of the embedding:
  * JS values that can appear as a named member of a module instance are
    classified only by what `#callMethod` observes: callable or not.
  * Method invocation is modelled observationally: an invocation produces a
    `CallEvent` recording the target instance, the method name, the ordered
    argument list and the `this`-binding the invoked function receives.
    Arguments are drawn from `Int` (the spec exercises numeric arguments).
  * `call` / `callById` return `Except ModularError (List CallEvent)`:
    the thrown exception or the ordered list of invocations performed.
  * The DOM is modelled as a rose tree whose root node plays the role of
    `document`; elements are addressed by numeric node ids.
-/

namespace Modular

/-- What `Module.#callMethod` can observe about a member fetched off a
target instance: whether it is callable (`isFunction`) or not. -/
inductive Member where
  | callable
  | notCallable
deriving DecidableEq, Repr

/-- Modelled from the spec: `isFunction` (src/utils/is_function, not under
src/): true exactly when the value's runtime kind is callable. -/
def isFunction : Member → Bool
  | .callable => true
  | .notCallable => false

/-- The structural shape of an entry of `this.modules` (`ModuleCompiled`
from src/types): an `ID`, a `name` (type key) and named members, here a
finite association list from member name to member classification. -/
structure ModuleCompiled where
  ID : Int
  name : String
  members : List (String × Member)
deriving DecidableEq, Repr

/-- JS property lookup `module[methodName]` on the member table. -/
def ModuleCompiled.lookupMember (m : ModuleCompiled) (key : String) : Option Member :=
  (m.members.find? (fun p => p.1 == key)).map Prod.snd

/-- The two error kinds of the library (src/exceptions, not under src/):
each carries exactly the one identifying field the spec documents. -/
inductive ModularError where
  | moduleNotFound (name : String)
  | moduleIdNotFound (id : Int)
deriving DecidableEq, Repr

/-- The `Module` base-class state: the four fields stored verbatim by the
constructor (`ID`, `name`, `element`, `modules`).  `element` is the id of
the owned DOM node, or `none` when the instance is not element-bound. -/
structure Module where
  ID : Int
  name : String
  element : Option Nat
  modules : List ModuleCompiled
deriving DecidableEq, Repr

/-- The module-options record (src/types): the constructor's input. -/
structure ModuleOptions where
  ID : Int
  name : String
  element : Option Nat
  modules : List ModuleCompiled
deriving DecidableEq, Repr

/-- The constructor: stores all four fields verbatim, no validation. -/
def Module.new (opts : ModuleOptions) : Module :=
  { ID := opts.ID, name := opts.name, element := opts.element, modules := opts.modules }

/-- One observed method invocation: which target instance was invoked,
with which method name and argument list, and which module instance the
invoked function received as its own-instance (`this`) context.
`#callMethod` does `moduleMethod.apply(this, ...args)`, so `thisBound`
records the *calling* `Module` instance. -/
structure CallEvent where
  target : ModuleCompiled
  method : String
  args : List Int
  thisBound : Module
deriving DecidableEq, Repr

/-- `Module.#callMethod`: fetch the member named `methodName` off the
target; if it exists and `isFunction` holds, invoke it with `this` bound
to the calling instance (`self`) and the ordered `args` as arguments;
otherwise do nothing.  (At both call sites the TS rest parameter receives
the single array `args`, so `apply(this, ...args)` forwards exactly the
original argument list.) -/
def Module.callMethod (self : Module) (target : ModuleCompiled)
    (methodName : String) (args : List Int) : List CallEvent :=
  match target.lookupMember methodName with
  | some m => if isFunction m then [⟨target, methodName, args, self⟩] else []
  | none => []

/-- `Module.call(moduleName, methodName, ...args)`: filter `this.modules`
by name; if the filtered list is non-empty, `#callMethod` each match in
order; otherwise throw `ModularModuleNotFoundException(moduleName)`. -/
def Module.call (self : Module) (moduleName : String) (methodName : String)
    (args : List Int) : Except ModularError (List CallEvent) :=
  let moduleInstances := self.modules.filter (fun m => m.name == moduleName)
  if moduleInstances.length > 0 then
    .ok (moduleInstances.flatMap (fun mi => self.callMethod mi methodName args))
  else
    .error (.moduleNotFound moduleName)

/-- `Module.callById(id, methodName, ...args)`: find the first entry of
`this.modules` whose `ID` equals `id`; if found, `#callMethod` it;
otherwise throw `ModularModuleIdNotFoundException(id)`. -/
def Module.callById (self : Module) (id : Int) (methodName : String)
    (args : List Int) : Except ModularError (List CallEvent) :=
  match self.modules.find? (fun m => m.ID == id) with
  | some module => .ok (self.callMethod module methodName args)
  | none => .error (.moduleIdNotFound id)

/-- An association-list lookup: the value of the first entry with the
given key, or `none`. -/
def alistLookup {α β : Type} [BEq α] (l : List (α × β)) (key : α) : Option β :=
  (l.find? (fun p => p.1 == key)).map Prod.snd

/-- An association-list update: rewrite the value of every entry with the
given key in place when one exists, append `(key, f d)` otherwise. -/
def alistUpdate {α β : Type} [BEq α] (l : List (α × β)) (key : α)
    (f : β → β) (d : β) : List (α × β) :=
  if l.any (fun p => p.1 == key) then
    l.map (fun p => if p.1 == key then (p.1, f p.2) else p)
  else
    l ++ [(key, f d)]

/-- `getAttribute` on an element's attribute map. -/
def getAttrList (attrs : List (String × String)) (k : String) : Option String :=
  alistLookup attrs k

/-- `setAttribute` on an element's attribute map: replace the value in
place when the attribute exists, append it otherwise. -/
def setAttrList (attrs : List (String × String)) (k v : String) :
    List (String × String) :=
  alistUpdate attrs k (fun _ => v) v

/-- The shape of the document tree: element ids and parent/child links.
The root node plays the role of `document`; every other node is an
element.  Ids stand in for object identity. -/
inductive DomTree where
  | node (id : Nat) (children : List DomTree)

def DomTree.id : DomTree → Nat
  | .node i _ => i

def DomTree.children : DomTree → List DomTree
  | .node _ cs => cs

mutual
/-- All element ids of the tree in document (preorder) order. -/
def DomTree.preorder : DomTree → List Nat
  | .node i cs => i :: DomTree.preorderList cs
def DomTree.preorderList : List DomTree → List Nat
  | [] => []
  | c :: cs => DomTree.preorder c ++ DomTree.preorderList cs
end

/-- The strict descendants of a node, in document order (the search space
of `querySelectorAll`). -/
def DomTree.descendants (t : DomTree) : List Nat :=
  DomTree.preorderList t.children

mutual
/-- The first subtree in document order rooted at the given id, if any. -/
def DomTree.findSubtree : DomTree → Nat → Option DomTree
  | .node i cs, target =>
    if i == target then some (.node i cs) else DomTree.findSubtreeList cs target
def DomTree.findSubtreeList : List DomTree → Nat → Option DomTree
  | [], _ => none
  | c :: cs, target =>
    match DomTree.findSubtree c target with
    | some r => some r
    | none => DomTree.findSubtreeList cs target
end

mutual
/-- The ids on the path from the tree's root down to the node with the
given id, both endpoints included; `none` when no such node exists. -/
def DomTree.pathTo : DomTree → Nat → Option (List Nat)
  | .node i cs, target =>
    if i == target then some [i]
    else
      match DomTree.pathToList cs target with
      | some p => some (i :: p)
      | none => none
def DomTree.pathToList : List DomTree → Nat → Option (List Nat)
  | [], _ => none
  | c :: cs, target =>
    match DomTree.pathTo c target with
    | some p => some p
    | none => DomTree.pathToList cs target
end

/-- The document: the tree shape plus each element's attribute map.  An
element not listed in `attrs` has no attributes. -/
structure Dom where
  tree : DomTree
  attrs : List (Nat × List (String × String))

/-- The attribute map of an element. -/
def Dom.elementAttrs (dom : Dom) (el : Nat) : List (String × String) :=
  (alistLookup dom.attrs el).getD []

/-- `el.getAttribute(k)`. -/
def Dom.getAttr (dom : Dom) (el : Nat) (k : String) : Option String :=
  getAttrList (dom.elementAttrs el) k

/-- `el.setAttribute(k, v)`: the document after the write. -/
def Dom.setAttr (dom : Dom) (el : Nat) (k v : String) : Dom :=
  { dom with attrs := alistUpdate dom.attrs el (fun a => setAttrList a k v) [] }

/-- The elements `parent`'s while loop visits: the strict ancestors of the
target, nearest first, excluding the document root — exactly the chain of
`parentNode` links walked while the node is not `document`. -/
def Dom.ancestorChain (dom : Dom) (target : Nat) : List Nat :=
  match dom.tree.pathTo target with
  | some p => ((p.drop 1).dropLast).reverse
  | none => []

/-- Modelled from the spec: the selector produced by `generateCustomQuery`
(src/utils/generate_custom_query, not under src/): it scopes to the
module's type key (the `data-<key>` attribute convention) and optionally
carries the caller's selector fragment as an additional narrowing. -/
structure CustomQuery where
  key : String
  fragment : Option String
deriving DecidableEq, Repr

/-- Modelled from the spec: `generateCustomQuery(name, selectors)` pairs
the type key with the optional fragment. -/
def generateCustomQuery (name : String) (selectors : Option String) : CustomQuery :=
  ⟨name, selectors⟩

/-- Modelled from the spec: an element matches the custom query when it
carries the `data-<key>` attribute (the type-key scoping) and, when a
fragment was supplied, additionally satisfies the fragment, whose
unspecified grammar is abstracted by the predicate `fragMatch`. -/
def matchesCustomQuery (fragMatch : String → Nat → Bool) (dom : Dom)
    (cq : CustomQuery) (el : Nat) : Bool :=
  (dom.getAttr el ("data-" ++ cq.key)).isSome &&
    (match cq.fragment with
     | some f => fragMatch f el
     | none => true)

/-- `root.querySelectorAll(cq)`: the strict descendants of the root
element, in document order, that match the query. -/
def Dom.querySelectorAll (dom : Dom) (fragMatch : String → Nat → Bool)
    (root : Nat) (cq : CustomQuery) : List Nat :=
  match dom.tree.findSubtree root with
  | some r => r.descendants.filter (matchesCustomQuery fragMatch dom cq)
  | none => []

/-- Modelled from the spec: `isObject` (src/utils/is_object, not under
src/): true exactly when the value is a non-null structured value.  A
supplied `context` is always an element (structured and non-null), so on
the embedding's optional-element type this is presence. -/
def isObject (context : Option Nat) : Bool :=
  context.isSome

/-- The shape `q` returns on success: the single element on exactly one
match, the full ordered list on two or more. -/
inductive QueryResult where
  | single (el : Nat)
  | multiple (els : List Nat)
deriving DecidableEq, Repr

/-- `Module.q(selectors?, context?)`: root = `context` when `isObject`
holds of it, else `this.element`; `null` when no root; otherwise
`querySelectorAll` with the custom query, returning `null` on zero
matches, the single element on one, and the full list otherwise. -/
def Module.q (self : Module) (dom : Dom) (fragMatch : String → Nat → Bool)
    (selectors : Option String) (context : Option Nat) : Option QueryResult :=
  let element := if isObject context then context else self.element
  match element with
  | none => none
  | some root =>
    match dom.querySelectorAll fragMatch root (generateCustomQuery self.name selectors) with
    | [] => none
    | [e] => some (.single e)
    | es => some (.multiple es)

/-- `Module.parent(query, target)`: walk `parentNode` links from the
target's immediate parent, while the node is not `document`, returning the
first visited element matching `[data-<name>="<query>"]`. -/
def Module.parent (self : Module) (dom : Dom) (query : String)
    (target : Nat) : Option Nat :=
  (dom.ancestorChain target).find?
    (fun el => dom.getAttr el ("data-" ++ self.name) == some query)

/-- `Module.getData(qualifiedName, target)`: read attribute
`data-<qualifiedName>` off `target || this.element`; `null` when neither
is available. -/
def Module.getData (self : Module) (dom : Dom) (qualifiedName : String)
    (target : Option Nat) : Option String :=
  let element := match target with
    | some t => some t
    | none => self.element
  match element with
  | some el => dom.getAttr el ("data-" ++ qualifiedName)
  | none => none

/-- `Module.setData(qualifiedName, value, target)`: set attribute
`data-<qualifiedName>` to `value` on `target || this.element`; no-op when
neither is available.  Returns the updated document. -/
def Module.setData (self : Module) (dom : Dom) (qualifiedName : String)
    (value : String) (target : Option Nat) : Dom :=
  let element := match target with
    | some t => some t
    | none => self.element
  match element with
  | some el => dom.setAttr el ("data-" ++ qualifiedName) value
  | none => dom

/-- `Module.init()`: no-op in the base class (no field is assigned). -/
def Module.init (self : Module) : Module :=
  self

/-- `Module.destroy()`: no-op in the base class (no field is assigned). -/
def Module.destroy (self : Module) : Module :=
  self

/-- `Module.bind()`: no-op in the base class (no field is assigned). -/
def Module.bind (self : Module) : Module :=
  self

/-- One invocation of a base-class operation, for the frame property: the
arguments of each public operation. -/
inductive Op where
  | init
  | destroy
  | bind
  | call (moduleName methodName : String) (args : List Int)
  | callById (id : Int) (methodName : String) (args : List Int)
  | q (selectors : Option String) (context : Option Nat)
  | parent (query : String) (target : Nat)
  | getData (qualifiedName : String) (target : Option Nat)
  | setData (qualifiedName value : String) (target : Option Nat)

/-- The state a sequence of base-class operations acts on: the module
instance's four fields and the document. -/
structure SysState where
  mod : Module
  dom : Dom

/-- Run one base-class operation on the state.  Each operation's module
component is whatever the operation's translation leaves of the instance:
only `setData` changes the document, and no operation assigns an instance
field. -/
def applyOp (s : SysState) : Op → SysState
  | .init => { s with mod := s.mod.init }
  | .destroy => { s with mod := s.mod.destroy }
  | .bind => { s with mod := s.mod.bind }
  | .call _ _ _ => s
  | .callById _ _ _ => s
  | .q _ _ => s
  | .parent _ _ => s
  | .getData _ _ => s
  | .setData n v t => { s with dom := s.mod.setData s.dom n v t }

/-! Concrete instances used by the witness theorems. -/

/-- An accordion entry with a callable `open` member. -/
def exOpen1 : ModuleCompiled :=
  ⟨1, "accordion", [("open", Member.callable)]⟩

/-- A second accordion entry with a callable `open` member. -/
def exOpen2 : ModuleCompiled :=
  ⟨2, "accordion", [("open", Member.callable), ("x", Member.notCallable)]⟩

/-- An entry of a different type key without members. -/
def exSlider : ModuleCompiled :=
  ⟨3, "slider", []⟩

/-- A calling instance whose own entry (`exOpen1`) is in its list. -/
def exSelf : Module :=
  ⟨1, "accordion", some 10, [exOpen1, exOpen2, exSlider]⟩

/-- A tab entry, distinct identity. -/
def exTab8 : ModuleCompiled :=
  ⟨8, "tab", [("close", Member.callable)]⟩

/-- First of two entries violating identity uniqueness. -/
def exDup7a : ModuleCompiled :=
  ⟨7, "tab", [("close", Member.callable)]⟩

/-- Second entry with the same duplicated identity. -/
def exDup7b : ModuleCompiled :=
  ⟨7, "tab", [("close", Member.callable), ("z", Member.notCallable)]⟩

/-- A calling instance whose list has two entries of identity 7. -/
def exSelfDup : Module :=
  ⟨9, "tab", none, [exTab8, exDup7a, exDup7b]⟩

/-- A document: root 0 = `document`; 1 → 2 → 3 one branch, 10 → 11, 12
the other.  Elements 1, 3, 11, 12 carry `data-accordion` attributes. -/
def exDom : Dom :=
  { tree := .node 0 [
      .node 1 [
        .node 2 [
          .node 3 []]],
      .node 10 [
        .node 11 [],
        .node 12 []]],
    attrs := [
      (1, [("data-accordion", "item")]),
      (3, [("data-accordion", "x")]),
      (11, [("data-accordion", "a")]),
      (12, [("data-accordion", "b")])] }

/-! Helper lemmas shared by the claim theorems. -/

/-- `#callMethod` on a target whose member is callable yields exactly one
invocation, `this`-bound to the caller. -/
theorem callMethod_of_callable (self : Module) (t : ModuleCompiled) (m : String)
    (args : List Int) (h : t.lookupMember m = some Member.callable) :
    self.callMethod t m args = [⟨t, m, args, self⟩] := by
  unfold Module.callMethod
  rw [h]
  rfl

/-- `#callMethod` on a target whose member is absent or not callable
yields no invocation. -/
theorem callMethod_of_not_callable (self : Module) (t : ModuleCompiled) (m : String)
    (args : List Int) (h : t.lookupMember m ≠ some Member.callable) :
    self.callMethod t m args = [] := by
  unfold Module.callMethod
  cases hm : t.lookupMember m with
  | none => rfl
  | some mem =>
    cases mem with
    | callable => exact absurd hm h
    | notCallable => rfl

/-- Over a list of targets all exposing the callable member, the helper
produces exactly one invocation per target, in order. -/
theorem flatMap_callMethod_of_all_callable (self : Module) (m : String)
    (args : List Int) (l : List ModuleCompiled)
    (h : ∀ e ∈ l, e.lookupMember m = some Member.callable) :
    l.flatMap (fun mi => self.callMethod mi m args)
      = l.map (fun mi => ⟨mi, m, args, self⟩) := by
  induction l with
  | nil => rfl
  | cons a t ih =>
    rw [List.flatMap_cons, List.map_cons,
      callMethod_of_callable self a m args (h a (by simp)),
      ih (fun e he => h e (by simp [he]))]
    rfl

/-- `find?` over a decomposition whose prefix has no hit returns the
first hit. -/
theorem find?_append_cons {α : Type} (p : α → Bool) (pre : List α) (e : α)
    (post : List α) (hpre : ∀ x ∈ pre, p x = false) (he : p e = true) :
    (pre ++ e :: post).find? p = some e := by
  induction pre with
  | nil => simp [List.find?_cons_of_pos, he]
  | cons a t ih =>
    have ha : p a = false := hpre a (by simp)
    rw [List.cons_append, List.find?_cons_of_neg _ (by simp [ha])]
    exact ih (fun x hx => hpre x (by simp [hx]))

/-- A successful `find?` hits the first satisfying element: it is at some
position, satisfies the predicate, and nothing before it does. -/
theorem find?_eq_some_first {α : Type} (p : α → Bool) (l : List α) (a : α)
    (h : l.find? p = some a) :
    p a = true ∧ ∃ i, l[i]? = some a ∧ ∀ b ∈ l.take i, p b = false := by
  induction l with
  | nil => simp [List.find?] at h
  | cons x t ih =>
    by_cases hx : p x = true
    · rw [List.find?_cons_of_pos _ hx] at h
      injection h with h
      subst h
      exact ⟨hx, 0, by simp, by simp⟩
    · rw [List.find?_cons_of_neg _ (by simpa using hx)] at h
      obtain ⟨hpa, i, hget, hbefore⟩ := ih h
      refine ⟨hpa, i + 1, by simpa using hget, ?_⟩
      intro b hb
      rw [List.take_succ_cons] at hb
      rcases List.mem_cons.mp hb with rfl | hb
      · simpa using hx
      · exact hbefore b hb

/-- `alistUpdate` on a list whose head has a different key keeps the
head and recurses. -/
theorem alistUpdate_cons_ne {α β : Type} [BEq α] (a : α × β) (t : List (α × β))
    (key : α) (f : β → β) (d : β) (ha : (a.1 == key) = false) :
    alistUpdate (a :: t) key f d = a :: alistUpdate t key f d := by
  cases ht : t.any (fun p => p.1 == key) with
  | true => simp [alistUpdate, List.any_cons, ha, ht]
  | false => simp [alistUpdate, List.any_cons, ha, ht]

/-- `alistLookup` skips a head with a different key. -/
theorem alistLookup_cons_ne {α β : Type} [BEq α] (a : α × β) (t : List (α × β))
    (key : α) (ha : (a.1 == key) = false) :
    alistLookup (a :: t) key = alistLookup t key := by
  unfold alistLookup
  rw [List.find?_cons_of_neg _ (by simp [ha])]

/-- Reading an association list right after updating it at a key yields
the updated value. -/
theorem alistLookup_alistUpdate {α β : Type} [BEq α] [LawfulBEq α]
    (l : List (α × β)) (key : α) (f : β → β) (d : β) :
    alistLookup (alistUpdate l key f d) key
      = some (f ((alistLookup l key).getD d)) := by
  induction l with
  | nil => simp [alistUpdate, alistLookup]
  | cons a t ih =>
    cases ha : (a.1 == key) with
    | true =>
      have hany : ((a :: t).any fun p => p.1 == key) = true := by
        simp [List.any_cons, ha]
      have hL : alistUpdate (a :: t) key f d
          = (a.1, f a.2) :: t.map (fun p => if p.1 == key then (p.1, f p.2) else p) := by
        simp [alistUpdate, hany, ha]
      have hR : (alistLookup (a :: t) key).getD d = a.2 := by
        unfold alistLookup
        rw [List.find?_cons_of_pos _ (by simpa using ha)]
        rfl
      rw [hL, hR]
      unfold alistLookup
      rw [List.find?_cons_of_pos _ (by simpa using ha)]
      rfl
    | false =>
      rw [alistUpdate_cons_ne a t key f d ha,
        alistLookup_cons_ne a (alistUpdate t key f d) key ha,
        alistLookup_cons_ne a t key ha]
      exact ih

/-- `setAttribute` / `getAttribute` round-trip on one attribute map. -/
theorem getAttrList_setAttrList (a : List (String × String)) (k v : String) :
    getAttrList (setAttrList a k v) k = some v := by
  unfold getAttrList setAttrList
  rw [alistLookup_alistUpdate]

/-- `setAttribute` / `getAttribute` round-trip on the document. -/
theorem getAttr_setAttr (dom : Dom) (el : Nat) (k v : String) :
    (dom.setAttr el k v).getAttr el k = some v := by
  show getAttrList ((alistLookup (alistUpdate dom.attrs el
    (fun a => setAttrList a k v) []) el).getD []) k = some v
  rw [alistLookup_alistUpdate]
  exact getAttrList_setAttrList ((alistLookup dom.attrs el).getD []) k v

/-! The claim theorems. -/

/-- C1: for every module instance and type key `k`, when no entry of the
sibling list has type key `k`, `call(k, m, ...args)` raises
`ModuleNotFound` carrying `k` and performs no invocation (the error result
carries no invocation events); when at least one entry has type key `k`,
no error is raised. -/
theorem call_moduleNotFound_spec (self : Module) (k m : String) (args : List Int) :
    ((∀ e ∈ self.modules, e.name ≠ k) →
      self.call k m args = .error (.moduleNotFound k)) ∧
    ((∃ e ∈ self.modules, e.name = k) →
      ∃ evs, self.call k m args = .ok evs) := by
  constructor
  · intro h
    have hf : self.modules.filter (fun e => e.name == k) = [] := by
      rw [List.filter_eq_nil_iff]
      intro a ha
      simpa using h a ha
    simp [Module.call, hf]
  · rintro ⟨e, he, hname⟩
    have hmem : e ∈ self.modules.filter (fun x => x.name == k) := by
      rw [List.mem_filter]
      exact ⟨he, by simpa using hname⟩
    have hlen : 0 < (self.modules.filter (fun x => x.name == k)).length :=
      List.length_pos.mpr (List.ne_nil_of_mem hmem)
    refine ⟨(self.modules.filter (fun x => x.name == k)).flatMap
      (fun mi => self.callMethod mi m args), ?_⟩
    simp only [Module.call]
    rw [if_pos hlen]

/-- C1 witness: a `call` against a list with no `"missing"` entry raises
`ModuleNotFound "missing"`, and one against a list with an `"accordion"`
entry raises nothing. -/
theorem call_moduleNotFound_spec_witness :
    (exSelf.call "missing" "anything" [] = .error (.moduleNotFound "missing")) ∧
    ∃ evs, exSelf.call "accordion" "open" [] = .ok evs :=
  ⟨(call_moduleNotFound_spec exSelf "missing" "anything" []).1 (by decide),
   (call_moduleNotFound_spec exSelf "accordion" "open" []).2 ⟨exOpen1, by decide, by decide⟩⟩

/-- C2: when the sibling list has a matching entry and every matching
entry exposes the callable method, `call` invokes the method exactly once
per matching entry, in list order, passing each the full ordered argument
list. -/
theorem call_invokes_each_match_in_order (self : Module) (k m : String)
    (args : List Int)
    (hne : self.modules.filter (fun e => e.name == k) ≠ [])
    (hcall : ∀ e ∈ self.modules.filter (fun e => e.name == k),
      e.lookupMember m = some Member.callable) :
    self.call k m args =
      .ok ((self.modules.filter (fun e => e.name == k)).map
        (fun e => ⟨e, m, args, self⟩)) := by
  have hlen : 0 < (self.modules.filter (fun e => e.name == k)).length :=
    List.length_pos.mpr hne
  simp only [Module.call]
  rw [if_pos hlen, flatMap_callMethod_of_all_callable self m args _ hcall]

/-- C2 witness: two accordion entries with callable `open` members are
both invoked, in list order, each receiving arguments `(1, 2)`. -/
theorem call_invokes_each_match_in_order_witness :
    exSelf.call "accordion" "open" [1, 2] =
      .ok [⟨exOpen1, "open", [1, 2], exSelf⟩, ⟨exOpen2, "open", [1, 2], exSelf⟩] := by
  have := call_invokes_each_match_in_order exSelf "accordion" "open" [1, 2]
    (by decide) (by decide)
  simpa using this

/-- C3: the internal invocation helper invokes a callable member with
`this` bound to the calling instance (`self`, recorded in the event's
`thisBound`) and the ordered argument list, and silently does nothing when
the member is absent or not callable.  It is a total function into event
lists, so it raises no error. -/
theorem callMethod_binds_caller_and_skips_silently (self : Module)
    (t : ModuleCompiled) (m : String) (args : List Int) :
    (t.lookupMember m = some Member.callable →
      self.callMethod t m args = [⟨t, m, args, self⟩]) ∧
    (t.lookupMember m ≠ some Member.callable →
      self.callMethod t m args = []) :=
  ⟨callMethod_of_callable self t m args, callMethod_of_not_callable self t m args⟩

/-- C3 witness: a callable `open` member produces one invocation bound to
the caller; a missing member on `exSlider` produces none. -/
theorem callMethod_binds_caller_and_skips_silently_witness :
    (exSelf.callMethod exOpen1 "open" [5] = [⟨exOpen1, "open", [5], exSelf⟩]) ∧
    (exSelf.callMethod exSlider "open" [5] = []) :=
  ⟨(callMethod_binds_caller_and_skips_silently exSelf exOpen1 "open" [5]).1 (by decide),
   (callMethod_binds_caller_and_skips_silently exSelf exSlider "open" [5]).2 (by decide)⟩

/-- C4: `callById(id, m, ...args)` invokes the named method via the
internal helper on the first entry whose `ID` equals `id` when one
exists; when no entry has that identity it raises `ModuleIdNotFound`
carrying `id` and performs no invocation. -/
theorem callById_first_match_or_moduleIdNotFound (self : Module) (id : Int)
    (m : String) (args : List Int) :
    ((∀ e ∈ self.modules, e.ID ≠ id) →
      self.callById id m args = .error (.moduleIdNotFound id)) ∧
    (∀ pre e post, self.modules = pre ++ e :: post → e.ID = id →
      (∀ x ∈ pre, x.ID ≠ id) →
      self.callById id m args = .ok (self.callMethod e m args)) := by
  constructor
  · intro h
    have hf : self.modules.find? (fun x => x.ID == id) = none := by
      rw [List.find?_eq_none]
      intro a ha
      simpa using h a ha
    simp [Module.callById, hf]
  · intro pre e post hmod he hpre
    have hf : self.modules.find? (fun x => x.ID == id) = some e := by
      rw [hmod]
      exact find?_append_cons _ pre e post
        (fun x hx => by simpa using hpre x hx) (by simpa using he)
    simp [Module.callById, hf]

/-- C4 witness: `callById 42` against a list with no identity 42 raises
`ModuleIdNotFound 42`; `callById 2` invokes the helper on the entry of
identity 2. -/
theorem callById_first_match_or_moduleIdNotFound_witness :
    (exSelf.callById 42 "anything" [] = .error (.moduleIdNotFound 42)) ∧
    (exSelf.callById 2 "open" [7] = .ok (exSelf.callMethod exOpen2 "open" [7])) :=
  ⟨(callById_first_match_or_moduleIdNotFound exSelf 42 "anything" []).1 (by decide),
   (callById_first_match_or_moduleIdNotFound exSelf 2 "open" [7]).2
     [exOpen1] exOpen2 [exSlider] rfl (by decide) (by decide)⟩

/-- C9: `call` does not exclude the calling instance: when the caller's
own entry (same identity) appears in the sibling list under type key `k`
with the callable method, it is invoked along with every other matching
entry. -/
theorem call_does_not_exclude_caller (self : Module) (k m : String)
    (args : List Int) (own : ModuleCompiled) (hmem : own ∈ self.modules)
    (_hid : own.ID = self.ID) (hname : own.name = k)
    (hcall : own.lookupMember m = some Member.callable) :
    ∃ evs, self.call k m args = .ok evs ∧
      CallEvent.mk own m args self ∈ evs ∧
      ∀ e ∈ self.modules, e.name = k → e.lookupMember m = some Member.callable →
        CallEvent.mk e m args self ∈ evs := by
  have hownf : own ∈ self.modules.filter (fun x => x.name == k) := by
    rw [List.mem_filter]
    exact ⟨hmem, by simpa using hname⟩
  have hlen : 0 < (self.modules.filter (fun x => x.name == k)).length :=
    List.length_pos.mpr (List.ne_nil_of_mem hownf)
  refine ⟨(self.modules.filter (fun x => x.name == k)).flatMap
    (fun mi => self.callMethod mi m args), ?_, ?_, ?_⟩
  · simp only [Module.call]
    rw [if_pos hlen]
  · rw [List.mem_flatMap]
    exact ⟨own, hownf, by rw [callMethod_of_callable self own m args hcall]; simp⟩
  · intro e he hek hec
    rw [List.mem_flatMap]
    refine ⟨e, ?_, ?_⟩
    · rw [List.mem_filter]
      exact ⟨he, by simpa using hek⟩
    · rw [callMethod_of_callable self e m args hec]
      simp

/-- C9 witness: `exSelf`'s own entry `exOpen1` (identity 1) is invoked by
its own `call "accordion"`, along with the other accordion entry. -/
theorem call_does_not_exclude_caller_witness :
    ∃ evs, exSelf.call "accordion" "open" [3] = .ok evs ∧
      CallEvent.mk exOpen1 "open" [3] exSelf ∈ evs ∧
      ∀ e ∈ exSelf.modules, e.name = "accordion" →
        e.lookupMember "open" = some Member.callable →
        CallEvent.mk e "open" [3] exSelf ∈ evs :=
  call_does_not_exclude_caller exSelf "accordion" "open" [3] exOpen1
    (by decide) (by decide) (by decide) (by decide)

/-- C10: `callById` performs at most one invocation even when several
entries share the identity: the invocation goes to the first entry of that
identity, yields at most one event, and every event targets that first
entry — later duplicates are never touched. -/
theorem callById_invokes_at_most_first_match (self : Module) (id : Int)
    (m : String) (args : List Int) (pre : List ModuleCompiled)
    (e : ModuleCompiled) (post : List ModuleCompiled)
    (hmod : self.modules = pre ++ e :: post) (he : e.ID = id)
    (hpre : ∀ x ∈ pre, x.ID ≠ id) :
    self.callById id m args = .ok (self.callMethod e m args) ∧
    (self.callMethod e m args).length ≤ 1 ∧
    ∀ ev ∈ self.callMethod e m args, ev.target = e := by
  have hf : self.modules.find? (fun x => x.ID == id) = some e := by
    rw [hmod]
    exact find?_append_cons _ pre e post
      (fun x hx => by simpa using hpre x hx) (by simpa using he)
  refine ⟨by simp [Module.callById, hf], ?_, ?_⟩
  · unfold Module.callMethod
    cases hm : e.lookupMember m with
    | none => simp
    | some mem => cases mem <;> simp [isFunction]
  · intro ev hev
    unfold Module.callMethod at hev
    cases hm : e.lookupMember m with
    | none => rw [hm] at hev; simp at hev
    | some mem =>
      rw [hm] at hev
      cases mem with
      | callable => simp [isFunction] at hev; rw [hev]
      | notCallable => simp [isFunction] at hev

/-- C10 witness: with two entries of identity 7, `callById 7` returns the
single invocation of the first one (`exDup7a`); the second is untouched. -/
theorem callById_invokes_at_most_first_match_witness :
    (exSelfDup.callById 7 "close" [] = .ok (exSelfDup.callMethod exDup7a "close" [])) ∧
    (exSelfDup.callMethod exDup7a "close" []).length ≤ 1 ∧
    ∀ ev ∈ exSelfDup.callMethod exDup7a "close" [], ev.target = exDup7a :=
  callById_invokes_at_most_first_match exSelfDup 7 "close" [] [exTab8] exDup7a
    [exDup7b] rfl (by decide) (by decide)

/-- C5: `q` uses `context` as the search root when it is a structured
non-null value and the instance's own `element` otherwise; with no root it
returns `none`; otherwise it searches the root's descendants with the
type-key-scoped custom query and returns `none` on zero matches, the
single element on exactly one match, and the full ordered match list on
two or more. -/
theorem q_root_resolution_and_result_shape (self : Module) (dom : Dom)
    (fragMatch : String → Nat → Bool) (selectors : Option String)
    (context : Option Nat) :
    ((if isObject context then context else self.element) = none →
      self.q dom fragMatch selectors context = none) ∧
    (∀ root, (if isObject context then context else self.element) = some root →
      (dom.querySelectorAll fragMatch root (generateCustomQuery self.name selectors) = [] →
        self.q dom fragMatch selectors context = none) ∧
      (∀ x, dom.querySelectorAll fragMatch root
          (generateCustomQuery self.name selectors) = [x] →
        self.q dom fragMatch selectors context = some (.single x)) ∧
      (2 ≤ (dom.querySelectorAll fragMatch root
          (generateCustomQuery self.name selectors)).length →
        self.q dom fragMatch selectors context =
          some (.multiple (dom.querySelectorAll fragMatch root
            (generateCustomQuery self.name selectors))))) := by
  constructor
  · intro h
    simp only [Module.q, h]
  · intro root hroot
    refine ⟨?_, ?_, ?_⟩
    · intro hq
      simp only [Module.q, hroot, hq]
    · intro x hq
      simp only [Module.q, hroot, hq]
    · intro hlen
      rcases hq : dom.querySelectorAll fragMatch root
          (generateCustomQuery self.name selectors) with _ | ⟨a, rest⟩
      · rw [hq] at hlen
        simp at hlen
      · rcases rest with _ | ⟨b, rest2⟩
        · rw [hq] at hlen
          simp at hlen
        · simp only [Module.q, hroot, hq]

/-- C5 witness: with no element and no context `q` is `none`; with context
element 1 there is one match (element 3), returned alone; with root 10
there are two matches, returned as the full list `[11, 12]`. -/
theorem q_root_resolution_and_result_shape_witness :
    (Module.q { exSelf with element := none } exDom (fun _ _ => true) none none
      = none) ∧
    (exSelf.q exDom (fun _ _ => true) none (some 1) = some (.single 3)) ∧
    (exSelf.q exDom (fun _ _ => true) none none = some (.multiple [11, 12])) := by
  refine ⟨?_, ?_, ?_⟩
  · exact (q_root_resolution_and_result_shape { exSelf with element := none }
      exDom (fun _ _ => true) none none).1 (by decide)
  · exact ((q_root_resolution_and_result_shape exSelf exDom (fun _ _ => true)
      none (some 1)).2 1 (by decide)).2.1 3 (by decide)
  · have h := ((q_root_resolution_and_result_shape exSelf exDom (fun _ _ => true)
      none none).2 10 (by decide)).2.2 (by decide)
    rw [h]
    decide

/-- C6: `parent(query, target)` walks strictly upward from the target's
immediate parent, stopping exclusively at the document root (the visited
elements are `ancestorChain`, nearest first): it returns `none` exactly
when no visited ancestor carries attribute `data-<typeKey>` with value
`query`, and returns the nearest such ancestor otherwise (some visited
position holds the result, every nearer one fails the test). -/
theorem parent_returns_nearest_matching_strict_ancestor (self : Module)
    (dom : Dom) (query : String) (target : Nat) :
    (self.parent dom query target = none ↔
      ∀ el ∈ dom.ancestorChain target,
        dom.getAttr el ("data-" ++ self.name) ≠ some query) ∧
    (∀ a, self.parent dom query target = some a →
      dom.getAttr a ("data-" ++ self.name) = some query ∧
      ∃ i, (dom.ancestorChain target)[i]? = some a ∧
        ∀ el ∈ (dom.ancestorChain target).take i,
          dom.getAttr el ("data-" ++ self.name) ≠ some query) := by
  constructor
  · unfold Module.parent
    rw [List.find?_eq_none]
    constructor
    · intro h el hel
      simpa using h el hel
    · intro h el hel
      simpa using h el hel
  · intro a ha
    unfold Module.parent at ha
    obtain ⟨hpa, i, hget, hbefore⟩ := find?_eq_some_first _ _ _ ha
    refine ⟨by simpa using hpa, i, hget, ?_⟩
    intro el hel
    simpa using hbefore el hel

/-- C6 witness: from element 3 (ancestors 2, then 1, then the root),
`parent "item"` returns element 1: it carries `data-accordion="item"`,
sits at some visited position, and every nearer ancestor fails the
test. -/
theorem parent_returns_nearest_matching_strict_ancestor_witness :
    exDom.getAttr 1 ("data-" ++ exSelf.name) = some "item" ∧
    ∃ i, (exDom.ancestorChain 3)[i]? = some 1 ∧
      ∀ el ∈ (exDom.ancestorChain 3).take i,
        exDom.getAttr el ("data-" ++ exSelf.name) ≠ some "item" :=
  (parent_returns_nearest_matching_strict_ancestor exSelf exDom "item" 3).2 1
    (by decide)

/-- C7: `setData(name, v, el)` followed by `getData(name, el)` on the same
element returns `v`: the write/read round-trip on the `data-<name>`
attribute. -/
theorem setData_getData_roundtrip (self : Module) (dom : Dom)
    (key v : String) (el : Nat) :
    self.getData (self.setData dom key v (some el)) key (some el) = some v :=
  getAttr_setAttr dom el ("data-" ++ key) v

/-- C8: a module instance's four fields — `ID` (identity), `name` (type
key), `element`, and `modules` (the sibling list) — equal the values
supplied at construction after any sequence of base-class operations:
none of `init`, `destroy`, `bind`, `call`, `callById`, `q`, `parent`,
`getData`, `setData` assigns an instance field (only `setData` changes
the document). -/
theorem fields_constant_under_base_ops (opts : ModuleOptions) (dom : Dom)
    (ops : List Op) :
    ((ops.foldl applyOp ⟨Module.new opts, dom⟩).mod).ID = opts.ID ∧
    ((ops.foldl applyOp ⟨Module.new opts, dom⟩).mod).name = opts.name ∧
    ((ops.foldl applyOp ⟨Module.new opts, dom⟩).mod).element = opts.element ∧
    ((ops.foldl applyOp ⟨Module.new opts, dom⟩).mod).modules = opts.modules := by
  have key : ∀ (l : List Op) (s : SysState), (l.foldl applyOp s).mod = s.mod := by
    intro l
    induction l with
    | nil =>
      intro s
      rfl
    | cons op rest ih =>
      intro s
      rw [List.foldl_cons, ih (applyOp s op)]
      cases op <;> rfl
  rw [key]
  exact ⟨rfl, rfl, rfl, rfl⟩

end Modular
